import Mathlib

/-
Verification of the TrustNet cache / mock-datastore layer
(services/api-python/app/core/cache.py, gcp.py, database.py).

The in-memory mocks use Python dicts; we embed a Python dict as an
association list (`List (String × α)`), which keeps insertion order the
way CPython dicts do.  Machine time (`datetime.utcnow()`) is threaded as
an explicit `now : Nat` parameter.  Python exceptions are modelled with
`Except PyErr`.
-/

set_option autoImplicit false

namespace TrustNet

universe u

variable {α : Type u}

/-- Python exception kinds that the embedded code can raise. -/
inductive PyErr : Type where
  | keyError : PyErr
  | runtimeError : PyErr
  | attributeError : PyErr
  | valueError : PyErr
  deriving DecidableEq, Repr

namespace PyDict

/-- Embedding of Python `d.get(k)` / `d[k]` lookup on an insertion-ordered
dict: return the value of the first matching key. -/
def get? : List (String × α) → String → Option α
  | [], _ => none
  | (k1, v) :: t, k => if k1 = k then some v else get? t k

/-- Embedding of Python `k in d`. -/
def contains (l : List (String × α)) (k : String) : Bool :=
  (get? l k).isSome

/-- Embedding of Python `d[k] = v`: replace the value at an existing key in
place (keeping its position), otherwise append the new pair at the end. -/
def set : List (String × α) → String → α → List (String × α)
  | [], k, v => [(k, v)]
  | (k1, v1) :: t, k, v =>
      if k1 = k then (k, v) :: t else (k1, v1) :: set t k v

/-- Embedding of Python `del d[k]` once the caller has established that the
key is present: drop the first matching pair. -/
def eraseKey : List (String × α) → String → List (String × α)
  | [], _ => []
  | (k1, v1) :: t, k => if k1 = k then t else (k1, v1) :: eraseKey t k

/-- Embedding of Python `del d[k]` with its raising behaviour: a missing
key raises `KeyError`. -/
def del (l : List (String × α)) (k : String) :
    Except PyErr (List (String × α)) :=
  if contains l k then .ok (eraseKey l k) else .error .keyError

/-- Embedding of Python `d.update(other)`: assign each pair of `other`
into `d`, in order. -/
def updateAll (d other : List (String × α)) : List (String × α) :=
  other.foldl (fun acc p => set acc p.1 p.2) d

end PyDict

/-- Python values that the JSON layer handles, as passed to
`json.dumps(data, default=str)` and produced by `json.loads`.
`Json.null` plays the role of Python `None`. -/
inductive Json : Type where
  | null : Json
  | bool : Bool → Json
  | num : Int → Json
  | str : String → Json
  | arr : List Json → Json
  | obj : List (String × Json) → Json

/-- Model of a Python `str` payload as stored by the cache layer.  The
embedded code only ever writes strings produced by `json.dumps`, but the
store can also hold an arbitrary (possibly malformed) string; the two
constructors keep those cases apart.  This models the contract of
Python's standard `json` module: `json.loads(json.dumps(v))` returns a
value equal to `v` for every JSON-serializable `v`, and `json.loads`
raises `ValueError` on a string that is not valid JSON. -/
inductive PyString : Type where
  | jsonOf : Json → PyString
  | malformed : String → PyString

/-- Model of `json.dumps(v, default=str)` for a JSON-serializable `v`. -/
def json_dumps (v : Json) : PyString := .jsonOf v

/-- Model of `json.loads`: succeeds exactly on the output of `json.dumps`
(returning the original value); raises `ValueError` on a malformed
string. -/
def json_loads : PyString → Except PyErr Json
  | .jsonOf v => .ok v
  | .malformed _ => .error .valueError

/-- Python truthiness of a string: every string is truthy except the empty
string.  `json.dumps` never returns the empty string (the shortest
outputs are two characters or more, e.g. `null`, `""`). -/
def pystr_truthy : PyString → Bool
  | .jsonOf _ => true
  | .malformed s => s ≠ ""

/-- State of `MockRedisClient` (cache.py lines 73-122): the `_data` dict
from keys to stored strings and the `_expiry` dict from keys to absolute
expiry times (`datetime` modelled as `Nat`). -/
structure RedisState : Type where
  _data : List (String × PyString)
  _expiry : List (String × Nat)

/-- Embedding of `MockRedisClient.get(key)` at time `now`: if the key has
a recorded expiry in the past, delete it from both dicts (the `_data`
deletion is unguarded in the source, so it can raise `KeyError`) and
return `None`; otherwise return `self._data.get(key)`. -/
def redis_get (st : RedisState) (key : String) (now : Nat) :
    Except PyErr (Option PyString × RedisState) :=
  match PyDict.get? st._expiry key with
  | some e =>
      if e < now then
        match PyDict.del st._data key with
        | .error er => .error er
        | .ok d2 =>
            match PyDict.del st._expiry key with
            | .error er => .error er
            | .ok e2 => .ok (none, ⟨d2, e2⟩)
      else .ok (PyDict.get? st._data key, st)
  | none => .ok (PyDict.get? st._data key, st)

/-- Embedding of `MockRedisClient.set(key, value, ex)` at time `now`:
stores the value, and records an absolute expiry `now + ex` only when
`ex` is truthy (`if ex:` in the source — a `None` or `0` ttl leaves
`_expiry` untouched).  Always returns `True`. -/
def redis_set (st : RedisState) (key : String) (value : PyString)
    (ex : Option Nat) (now : Nat) : Bool × RedisState :=
  let d2 := PyDict.set st._data key value
  let e2 := match ex with
    | some n => if n ≠ 0 then PyDict.set st._expiry key (now + n) else st._expiry
    | none => st._expiry
  (true, ⟨d2, e2⟩)

/-- Embedding of `MockRedisClient.delete(key)`: removes the key from
`_data` (counting 1 if it was present) and from `_expiry`. -/
def redis_delete (st : RedisState) (key : String) : Nat × RedisState :=
  let r : Nat × List (String × PyString) :=
    if PyDict.contains st._data key then (1, PyDict.eraseKey st._data key)
    else (0, st._data)
  let e2 :=
    if PyDict.contains st._expiry key then PyDict.eraseKey st._expiry key
    else st._expiry
  (r.1, ⟨r.2, e2⟩)

/-- Embedding of `MockRedisClient.exists(key)` at time `now`: same lazy
expiry purge as `get`, then `1 if key in self._data else 0`. -/
def redis_exists (st : RedisState) (key : String) (now : Nat) :
    Except PyErr (Nat × RedisState) :=
  match PyDict.get? st._expiry key with
  | some e =>
      if e < now then
        match PyDict.del st._data key with
        | .error er => .error er
        | .ok d2 =>
            match PyDict.del st._expiry key with
            | .error er => .error er
            | .ok e2 => .ok (0, ⟨d2, e2⟩)
      else .ok (if PyDict.contains st._data key then 1 else 0, st)
  | none => .ok (if PyDict.contains st._data key then 1 else 0, st)

/-- Invariant of `MockRedisClient`: every key with a recorded expiry is
also present in the data dict (stated as a decidable Bool check over the
`_expiry` entries). -/
abbrev RedisInv (st : RedisState) : Prop :=
  st._expiry.all (fun p => PyDict.contains st._data p.1) = true

/-- Well-formed `MockRedisClient` state: both association lists represent
Python dicts (no key occurs twice), and the expiry-keys-have-data
invariant holds. -/
abbrev RedisWF (st : RedisState) : Prop :=
  (st._data.map Prod.fst).Nodup ∧ (st._expiry.map Prod.fst).Nodup ∧
    RedisInv st

/-- Default cache ttl, `settings.CACHE_TTL_SECONDS` (config.py line 64). -/
def CACHE_TTL_SECONDS : Nat := 3600

/-- Module-level cache state of cache.py: the `_cache_initialized` flag
and the `_redis_client` instance (the mock client used in development
mode). -/
structure CacheGlobal : Type where
  _cache_initialized : Bool
  _redis_client : RedisState

/-- Embedding of `CacheManager._get_client`: raises `RuntimeError` when
the cache is not initialized, otherwise returns the client. -/
def cm_get_client (g : CacheGlobal) : Except PyErr RedisState :=
  if g._cache_initialized = false then .error .runtimeError
  else .ok g._redis_client

/-- Embedding of `CacheManager._make_key(prefix, identifier)`. -/
def make_key (pfx identifier : String) : String :=
  "trustnet:" ++ pfx ++ ":" ++ identifier

/-- Try block of `CacheManager.get_json` (cache.py lines 143-150): get the
client, read the key, and when the payload is truthy parse it with
`json.loads`.  A raise carries the client state at the raise point.
`Json.null` is Python `None` (which is also what `json.loads` yields for
a stored `null`). -/
def cm_get_json_try (g : CacheGlobal) (pfx identifier : String) (now : Nat) :
    Except (PyErr × RedisState) (Json × RedisState) :=
  match cm_get_client g with
  | .error er => .error (er, g._redis_client)
  | .ok client =>
      match redis_get client (make_key pfx identifier) now with
      | .error er => .error (er, client)
      | .ok (data, st2) =>
          match data with
          | some w =>
              if pystr_truthy w then
                match json_loads w with
                | .ok j => .ok (j, st2)
                | .error er => .error (er, st2)
              else .ok (Json.null, st2)
          | none => .ok (Json.null, st2)

/-- Embedding of `CacheManager.get_json`: the try block above, with the
`except Exception` clause turning any raise into a `None` result. -/
def cm_get_json (g : CacheGlobal) (pfx identifier : String) (now : Nat) :
    Json × CacheGlobal :=
  match cm_get_json_try g pfx identifier now with
  | .ok (j, st2) => (j, { g with _redis_client := st2 })
  | .error (_, st2) => (Json.null, { g with _redis_client := st2 })

/-- Try block of `CacheManager.set_json` (cache.py lines 157-164): get the
client, serialize, replace a falsy ttl by the default
(`ttl = ttl or self.default_ttl`), and store. -/
def cm_set_json_try (g : CacheGlobal) (pfx identifier : String) (v : Json)
    (ttl : Option Nat) (now : Nat) :
    Except (PyErr × RedisState) (Bool × RedisState) :=
  match cm_get_client g with
  | .error er => .error (er, g._redis_client)
  | .ok client =>
      let key := make_key pfx identifier
      let json_data := json_dumps v
      let t := match ttl with
        | some n => if n ≠ 0 then n else CACHE_TTL_SECONDS
        | none => CACHE_TTL_SECONDS
      let r := redis_set client key json_data (some t) now
      .ok (true, r.2)

/-- Embedding of `CacheManager.set_json`: the try block, with the except
clause returning `False`. -/
def cm_set_json (g : CacheGlobal) (pfx identifier : String) (v : Json)
    (ttl : Option Nat) (now : Nat) : Bool × CacheGlobal :=
  match cm_set_json_try g pfx identifier v ttl now with
  | .ok (b, st2) => (b, { g with _redis_client := st2 })
  | .error (_, st2) => (false, { g with _redis_client := st2 })

/-- Try block of `CacheManager.delete` (cache.py lines 171-175): delete
the key and return `result > 0`. -/
def cm_delete_try (g : CacheGlobal) (pfx identifier : String) :
    Except (PyErr × RedisState) (Bool × RedisState) :=
  match cm_get_client g with
  | .error er => .error (er, g._redis_client)
  | .ok client =>
      let r := redis_delete client (make_key pfx identifier)
      .ok (decide (0 < r.1), r.2)

/-- Embedding of `CacheManager.delete`: the try block, with the except
clause returning `False`. -/
def cm_delete (g : CacheGlobal) (pfx identifier : String) :
    Bool × CacheGlobal :=
  match cm_delete_try g pfx identifier with
  | .ok (b, st2) => (b, { g with _redis_client := st2 })
  | .error (_, st2) => (false, { g with _redis_client := st2 })

/-- Try block of `CacheManager.exists` (cache.py lines 182-186): check the
key and return `result > 0`. -/
def cm_exists_try (g : CacheGlobal) (pfx identifier : String) (now : Nat) :
    Except (PyErr × RedisState) (Bool × RedisState) :=
  match cm_get_client g with
  | .error er => .error (er, g._redis_client)
  | .ok client =>
      match redis_exists client (make_key pfx identifier) now with
      | .error er => .error (er, client)
      | .ok (n, st2) => .ok (decide (0 < n), st2)

/-- Embedding of `CacheManager.exists`: the try block, with the except
clause returning `False`. -/
def cm_exists (g : CacheGlobal) (pfx identifier : String) (now : Nat) :
    Bool × CacheGlobal :=
  match cm_exists_try g pfx identifier now with
  | .ok (b, st2) => (b, { g with _redis_client := st2 })
  | .error (_, st2) => (false, { g with _redis_client := st2 })

/-- Fields of a mock Firestore document: a Python dict from field names
to values. -/
abbrev Doc (α : Type u) : Type u := List (String × α)

/-- Contents of one mock Firestore collection
(`self._data[self.name]` in gcp.py): a Python dict from document ids to
field dicts, in insertion order. -/
abbrev Collection (α : Type u) : Type u := List (String × Doc α)

/-- Embedding of `MockFirestoreCollection.add(data)` (gcp.py lines
157-160): the generated id is the string `mock_` followed by the current
number of documents in the collection, and the document is stored under
that id (overwriting any document already stored there). -/
def mock_add (c : Collection α) (d : Doc α) : String × Collection α :=
  let doc_id := "mock_" ++ toString c.length
  (doc_id, PyDict.set c doc_id d)

/-- Embedding of `MockFirestoreCollection.stream()` (gcp.py lines
162-167): the method takes no filter and no limit, and yields every
document of the collection, with its id, in insertion order. -/
def mock_stream (c : Collection α) : List (String × Doc α) := c

/-- Embedding of `MockFirestoreDocument.update(data)` (gcp.py lines
189-193): shallow-merge into the stored fields when the document exists,
otherwise store the given fields as the document. -/
def mock_doc_update (c : Collection α) (doc_id : String) (upd : Doc α) :
    Collection α :=
  match PyDict.get? c doc_id with
  | some d => PyDict.set c doc_id (PyDict.updateAll d upd)
  | none => PyDict.set c doc_id upd

/-- Embedding of `MockFirestoreDocument.delete()` (gcp.py lines 195-197):
remove the document if present, no-op otherwise. -/
def mock_doc_delete (c : Collection α) (doc_id : String) : Collection α :=
  if PyDict.contains c doc_id then PyDict.eraseKey c doc_id else c

/-- Attribute access `collection.where(...)` on `MockFirestoreCollection`:
the class (gcp.py lines 145-167) defines only `document`, `add` and
`stream`, so in mock mode Python raises `AttributeError` before any
query object exists (hence the `Empty` success type). -/
def mock_collection_where (_c : Collection α) (_field _op : String)
    (_value : String) : Except PyErr Empty :=
  .error .attributeError

/-- Embedding of `FirestoreManager.get_evidence_by_claim` (database.py
lines 125-140) in mock mode: the try block evaluates
`collection.where("claim_id", "==", claim_id)`, which raises
`AttributeError` on the mock collection; the except clause logs and
returns the empty list. -/
def get_evidence_by_claim (c : Collection String) (claim_id : String) :
    List (Doc String) :=
  match mock_collection_where c "claim_id" "==" claim_id with
  | .ok q => q.elim
  | .error _ => []

namespace PyDict

@[simp] theorem get?_nil (k : String) : get? ([] : List (String × α)) k = none := rfl

@[simp] theorem get?_cons (k1 k : String) (v : α) (t : List (String × α)) :
    get? ((k1, v) :: t) k = if k1 = k then some v else get? t k := rfl

theorem get?_set_self (l : List (String × α)) (k : String) (v : α) :
    get? (set l k v) k = some v := by
  induction l with
  | nil => simp [set]
  | cons p t ih =>
      obtain ⟨k1, v1⟩ := p
      by_cases h : k1 = k <;> simp [set, h, ih]

theorem get?_set_ne (l : List (String × α)) (k k2 : String) (v : α)
    (h : k2 ≠ k) : get? (set l k v) k2 = get? l k2 := by
  induction l with
  | nil => simp [set, get?, Ne.symm h]
  | cons p t ih =>
      obtain ⟨k1, v1⟩ := p
      by_cases h1 : k1 = k
      · subst h1
        simp [set, Ne.symm h]
      · simp only [set, if_neg h1, get?_cons]
        by_cases h2 : k1 = k2 <;> simp [h2, ih]

theorem contains_set (l : List (String × α)) (k k2 : String) (v : α) :
    contains (set l k v) k2 = (k2 = k || contains l k2) := by
  by_cases h : k2 = k
  · subst h; simp [contains, get?_set_self]
  · simp [contains, get?_set_ne l k k2 v h, h]

theorem contains_of_get?_eq_some (l : List (String × α)) (k : String) (v : α)
    (h : get? l k = some v) : contains l k = true := by
  simp [contains, h]

theorem get?_eq_none_of_not_mem (l : List (String × α)) (k : String)
    (h : k ∉ l.map Prod.fst) : get? l k = none := by
  induction l with
  | nil => rfl
  | cons p t ih =>
      obtain ⟨k1, v1⟩ := p
      simp only [List.map_cons, List.mem_cons] at h
      push_neg at h
      simp [Ne.symm h.1, ih h.2]

theorem get?_eraseKey_self (l : List (String × α)) (k : String)
    (hnd : (l.map Prod.fst).Nodup) : get? (eraseKey l k) k = none := by
  induction l with
  | nil => rfl
  | cons p t ih =>
      obtain ⟨k1, v1⟩ := p
      simp only [List.map_cons, List.nodup_cons] at hnd
      by_cases h : k1 = k
      · subst h
        simp only [eraseKey, if_pos rfl]
        exact get?_eq_none_of_not_mem t k1 hnd.1
      · simp only [eraseKey, if_neg h, get?_cons, if_neg h]
        exact ih hnd.2

theorem get?_eraseKey_ne (l : List (String × α)) (k k2 : String)
    (h : k2 ≠ k) : get? (eraseKey l k) k2 = get? l k2 := by
  induction l with
  | nil => simp [eraseKey]
  | cons p t ih =>
      obtain ⟨k1, v1⟩ := p
      by_cases h1 : k1 = k
      · subst h1
        simp [eraseKey, Ne.symm h]
      · simp only [eraseKey, if_neg h1, get?_cons]
        by_cases h2 : k1 = k2 <;> simp [h2, ih]

theorem length_eraseKey (l : List (String × α)) (k : String)
    (h : contains l k = true) : (eraseKey l k).length + 1 = l.length := by
  induction l with
  | nil => simp [contains, get?] at h
  | cons p t ih =>
      obtain ⟨k1, v1⟩ := p
      by_cases h1 : k1 = k
      · simp [eraseKey, h1]
      · simp only [contains, get?_cons, if_neg h1] at h
        simp [eraseKey, h1, ih h]

theorem mem_of_get?_eq_some (l : List (String × α)) (k : String) (v : α)
    (h : get? l k = some v) : (k, v) ∈ l := by
  induction l with
  | nil => simp [get?] at h
  | cons p t ih =>
      obtain ⟨k1, v1⟩ := p
      by_cases h1 : k1 = k
      · subst h1
        rw [get?_cons, if_pos rfl] at h
        have hv := Option.some.inj h
        subst hv
        exact List.mem_cons_self _ _
      · simp only [get?_cons, if_neg h1] at h
        exact List.mem_cons_of_mem _ (ih h)

theorem contains_iff_mem_keys (l : List (String × α)) (k : String) :
    contains l k = true ↔ k ∈ l.map Prod.fst := by
  induction l with
  | nil => simp [contains, get?]
  | cons p t ih =>
      obtain ⟨k1, v1⟩ := p
      by_cases h1 : k1 = k
      · subst h1; simp [contains, get?_cons]
      · simp only [contains, get?_cons, if_neg h1, List.map_cons, List.mem_cons]
        rw [contains] at ih
        rw [ih]
        constructor
        · exact Or.inr
        · rintro (h | h)
          · exact absurd h.symm h1
          · exact h

theorem mem_set_imp (l : List (String × α)) (k : String) (v : α)
    (p : String × α) (h : p ∈ set l k v) : p = (k, v) ∨ p ∈ l := by
  induction l with
  | nil => simpa [set] using h
  | cons q t ih =>
      obtain ⟨k1, v1⟩ := q
      by_cases h1 : k1 = k
      · simp only [set, if_pos h1, List.mem_cons] at h
        rcases h with h | h
        · exact Or.inl h
        · exact Or.inr (List.mem_cons_of_mem _ h)
      · simp only [set, if_neg h1, List.mem_cons] at h
        rcases h with h | h
        · exact Or.inr (by simp [h])
        · rcases ih h with h2 | h2
          · exact Or.inl h2
          · exact Or.inr (List.mem_cons_of_mem _ h2)

theorem mem_eraseKey_imp (l : List (String × α)) (k : String)
    (p : String × α) (h : p ∈ eraseKey l k) : p ∈ l := by
  induction l with
  | nil => simp [eraseKey] at h
  | cons q t ih =>
      obtain ⟨k1, v1⟩ := q
      by_cases h1 : k1 = k
      · simp only [eraseKey, if_pos h1] at h
        exact List.mem_cons_of_mem _ h
      · simp only [eraseKey, if_neg h1, List.mem_cons] at h
        rcases h with h | h
        · exact h ▸ List.mem_cons_self _ _
        · exact List.mem_cons_of_mem _ (ih h)

theorem keys_set (l : List (String × α)) (k : String) (v : α) :
    (set l k v).map Prod.fst =
      if contains l k then l.map Prod.fst else l.map Prod.fst ++ [k] := by
  induction l with
  | nil => simp [set, contains, get?]
  | cons p t ih =>
      obtain ⟨k1, v1⟩ := p
      by_cases h1 : k1 = k
      · subst h1; simp [set, contains, get?_cons]
      · simp only [set, if_neg h1, List.map_cons, ih, contains, get?_cons,
          if_neg h1]
        by_cases h2 : (get? t k).isSome <;> simp [h2, contains]

theorem keys_eraseKey (l : List (String × α)) (k : String) :
    (eraseKey l k).map Prod.fst = (l.map Prod.fst).erase k := by
  induction l with
  | nil => rfl
  | cons p t ih =>
      obtain ⟨k1, v1⟩ := p
      by_cases h : k1 = k
      · subst h; simp [eraseKey, List.erase_cons_head]
      · simp only [eraseKey, if_neg h, List.map_cons, ih]
        rw [List.erase_cons_tail]
        simp [h]

theorem nodup_keys_set (l : List (String × α)) (k : String) (v : α)
    (h : (l.map Prod.fst).Nodup) : ((set l k v).map Prod.fst).Nodup := by
  rw [keys_set]
  by_cases hc : contains l k
  · simpa [hc] using h
  · have hk : k ∉ l.map Prod.fst := by
      intro hm
      exact hc ((contains_iff_mem_keys l k).mpr hm)
    rw [if_neg hc, List.nodup_append]
    refine ⟨h, List.nodup_singleton k, ?_⟩
    intro a ha hb
    rw [List.mem_singleton] at hb
    subst hb
    exact hk ha

theorem nodup_keys_eraseKey (l : List (String × α)) (k : String)
    (h : (l.map Prod.fst).Nodup) : ((eraseKey l k).map Prod.fst).Nodup := by
  rw [keys_eraseKey]
  exact h.erase k

theorem fst_ne_of_mem_eraseKey (l : List (String × α)) (k : String)
    (hnd : (l.map Prod.fst).Nodup) (p : String × α) (h : p ∈ eraseKey l k) :
    p.1 ≠ k := by
  intro hk
  have hmem : p.1 ∈ (eraseKey l k).map Prod.fst := List.mem_map_of_mem _ h
  rw [keys_eraseKey] at hmem
  rw [hk] at hmem
  exact hnd.not_mem_erase hmem

theorem updateAll_get?_not_mem (other d : List (String × α)) (f : String)
    (h : f ∉ other.map Prod.fst) :
    get? (updateAll d other) f = get? d f := by
  induction other generalizing d with
  | nil => rfl
  | cons p rest ih =>
      obtain ⟨k, v⟩ := p
      simp only [List.map_cons, List.mem_cons] at h
      push_neg at h
      show get? (updateAll (set d k v) rest) f = get? d f
      rw [ih (set d k v) h.2, get?_set_ne d k f v h.1]

theorem updateAll_get?_mem (other d : List (String × α)) (f : String)
    (hnd : (other.map Prod.fst).Nodup) (h : f ∈ other.map Prod.fst) :
    get? (updateAll d other) f = get? other f := by
  induction other generalizing d with
  | nil => simp at h
  | cons p rest ih =>
      obtain ⟨k, v⟩ := p
      simp only [List.map_cons, List.nodup_cons] at hnd
      simp only [List.map_cons, List.mem_cons] at h
      by_cases hf : f = k
      · subst hf
        show get? (updateAll (set d f v) rest) f = get? ((f, v) :: rest) f
        rw [updateAll_get?_not_mem rest (set d f v) f hnd.1,
          get?_set_self, get?_cons, if_pos rfl]
      · have hmem : f ∈ rest.map Prod.fst := by
          rcases h with h | h
          · exact absurd h hf
          · exact h
        show get? (updateAll (set d k v) rest) f = get? ((k, v) :: rest) f
        rw [ih (set d k v) hnd.2 hmem, get?_cons,
          if_neg (fun hh => hf hh.symm)]

theorem contains_eraseKey_imp (l : List (String × α)) (k k2 : String)
    (h : contains (eraseKey l k) k2 = true) : contains l k2 = true := by
  induction l with
  | nil => simpa [eraseKey] using h
  | cons p t ih =>
      obtain ⟨k1, v1⟩ := p
      by_cases h1 : k1 = k
      · simp only [eraseKey, if_pos h1] at h
        by_cases h2 : k1 = k2
        · simp [contains, get?_cons, h2]
        · simpa [contains, get?_cons, h2] using h
      · simp only [eraseKey, if_neg h1] at h
        by_cases h2 : k1 = k2
        · simp [contains, get?_cons, h2]
        · simp only [contains, get?_cons, if_neg h2] at h ⊢
          exact ih h

end PyDict

theorem redisInv_iff (st : RedisState) :
    RedisInv st ↔ ∀ p ∈ st._expiry, PyDict.contains st._data p.1 = true := by
  simp [RedisInv, List.all_eq_true]

theorem contains_of_mem (l : List (String × Nat)) (p : String × Nat)
    (hp : p ∈ l) : PyDict.contains l p.1 = true :=
  (PyDict.contains_iff_mem_keys _ _).mpr (List.mem_map_of_mem _ hp)

theorem redis_set_wf (st : RedisState) (k : String) (v : PyString)
    (ex : Option Nat) (now : Nat) (h : RedisWF st) :
    RedisWF (redis_set st k v ex now).2 := by
  obtain ⟨hd, he, hinv⟩ := h
  rw [redisInv_iff] at hinv
  have hdata : (redis_set st k v ex now).2._data = PyDict.set st._data k v := by
    simp [redis_set]
  have hexp : (redis_set st k v ex now).2._expiry = st._expiry ∨
      ∃ n, (redis_set st k v ex now).2._expiry =
        PyDict.set st._expiry k (now + n) := by
    cases ex with
    | none => exact Or.inl (by simp [redis_set])
    | some n =>
        by_cases hn : n = 0
        · exact Or.inl (by simp [redis_set, hn])
        · exact Or.inr ⟨n, by simp [redis_set, hn]⟩
  refine ⟨?_, ?_, ?_⟩
  · rw [hdata]; exact PyDict.nodup_keys_set _ _ _ hd
  · rcases hexp with h1 | ⟨n, h1⟩
    · rw [h1]; exact he
    · rw [h1]; exact PyDict.nodup_keys_set _ _ _ he
  · rw [redisInv_iff]
    intro p hp
    rw [hdata, PyDict.contains_set]
    rcases hexp with h1 | ⟨n, h1⟩
    · rw [h1] at hp
      simp [hinv p hp]
    · rw [h1] at hp
      rcases PyDict.mem_set_imp _ _ _ _ hp with h2 | h2
      · simp [h2]
      · simp [hinv p h2]

theorem redis_purged_wf (st : RedisState) (k : String) (h : RedisWF st) :
    RedisWF ⟨PyDict.eraseKey st._data k, PyDict.eraseKey st._expiry k⟩ := by
  obtain ⟨hd, he, hinv⟩ := h
  rw [redisInv_iff] at hinv
  refine ⟨PyDict.nodup_keys_eraseKey _ _ hd,
    PyDict.nodup_keys_eraseKey _ _ he, ?_⟩
  rw [redisInv_iff]
  intro p hp
  have hpk : p.1 ≠ k := PyDict.fst_ne_of_mem_eraseKey _ _ he p hp
  have hpm : p ∈ st._expiry := PyDict.mem_eraseKey_imp _ _ p hp
  have hc := hinv p hpm
  simp only [PyDict.contains] at hc ⊢
  rw [PyDict.get?_eraseKey_ne _ _ _ hpk]
  exact hc

theorem redis_get_ok_wf (st : RedisState) (k : String) (now : Nat)
    (h : RedisWF st) :
    ∃ r st2, redis_get st k now = .ok (r, st2) ∧ RedisWF st2 := by
  obtain ⟨hd, he, hinv⟩ := h
  have hinv2 := (redisInv_iff st).mp hinv
  cases hexp : PyDict.get? st._expiry k with
  | none =>
      exact ⟨PyDict.get? st._data k, st, by simp [redis_get, hexp],
        hd, he, hinv⟩
  | some e =>
      by_cases hlt : e < now
      · have hck : PyDict.contains st._data k = true :=
          hinv2 (k, e) (PyDict.mem_of_get?_eq_some _ _ _ hexp)
        have hce : PyDict.contains st._expiry k = true :=
          PyDict.contains_of_get?_eq_some _ _ _ hexp
        refine ⟨none,
          ⟨PyDict.eraseKey st._data k, PyDict.eraseKey st._expiry k⟩, ?_, ?_⟩
        · simp [redis_get, hexp, hlt, PyDict.del, hck, hce]
        · exact redis_purged_wf st k ⟨hd, he, hinv⟩
      · exact ⟨PyDict.get? st._data k, st,
          by simp [redis_get, hexp, hlt], hd, he, hinv⟩

theorem redis_exists_ok_wf (st : RedisState) (k : String) (now : Nat)
    (h : RedisWF st) :
    ∃ n st2, redis_exists st k now = .ok (n, st2) ∧ RedisWF st2 := by
  obtain ⟨hd, he, hinv⟩ := h
  have hinv2 := (redisInv_iff st).mp hinv
  cases hexp : PyDict.get? st._expiry k with
  | none =>
      exact ⟨if PyDict.contains st._data k then 1 else 0, st,
        by simp [redis_exists, hexp], hd, he, hinv⟩
  | some e =>
      by_cases hlt : e < now
      · have hck : PyDict.contains st._data k = true :=
          hinv2 (k, e) (PyDict.mem_of_get?_eq_some _ _ _ hexp)
        have hce : PyDict.contains st._expiry k = true :=
          PyDict.contains_of_get?_eq_some _ _ _ hexp
        refine ⟨0,
          ⟨PyDict.eraseKey st._data k, PyDict.eraseKey st._expiry k⟩, ?_, ?_⟩
        · simp [redis_exists, hexp, hlt, PyDict.del, hck, hce]
        · exact redis_purged_wf st k ⟨hd, he, hinv⟩
      · exact ⟨if PyDict.contains st._data k then 1 else 0, st,
          by simp [redis_exists, hexp, hlt], hd, he, hinv⟩

theorem redis_delete_wf (st : RedisState) (k : String) (h : RedisWF st) :
    RedisWF (redis_delete st k).2 := by
  obtain ⟨hd, he, hinv⟩ := h
  have hinv2 := (redisInv_iff st).mp hinv
  by_cases hc : PyDict.contains st._data k <;>
    by_cases hce : PyDict.contains st._expiry k <;>
      simp only [redis_delete, hc, hce, if_true, if_false] <;>
        refine ⟨?_, ?_, ?_⟩
  · exact PyDict.nodup_keys_eraseKey _ _ hd
  · exact PyDict.nodup_keys_eraseKey _ _ he
  · rw [redisInv_iff]
    intro p hp
    have hpk : p.1 ≠ k := PyDict.fst_ne_of_mem_eraseKey _ _ he p hp
    have hpm : p ∈ st._expiry := PyDict.mem_eraseKey_imp _ _ p hp
    have h3 := hinv2 p hpm
    simp only [PyDict.contains] at h3 ⊢
    rw [PyDict.get?_eraseKey_ne _ _ _ hpk]
    exact h3
  · exact PyDict.nodup_keys_eraseKey _ _ hd
  · exact he
  · rw [redisInv_iff]
    intro p hp
    have hpk : p.1 ≠ k := by
      intro hk
      exact hce (hk ▸ contains_of_mem st._expiry p hp)
    have h3 := hinv2 p hp
    simp only [PyDict.contains] at h3 ⊢
    rw [PyDict.get?_eraseKey_ne _ _ _ hpk]
    exact h3
  · exact hd
  · exact PyDict.nodup_keys_eraseKey _ _ he
  · rw [redisInv_iff]
    intro p hp
    exact hinv2 p (PyDict.mem_eraseKey_imp _ _ p hp)
  · exact hd
  · exact he
  · rw [redisInv_iff]
    intro p hp
    exact hinv2 p hp

theorem redis_fresh_get (st : RedisState) (key : String) (w : PyString)
    (tv now : Nat) (htv : tv ≠ 0) :
    redis_get (redis_set st key w (some tv) now).2 key now =
      .ok (some w, (redis_set st key w (some tv) now).2) := by
  have hexp : PyDict.get? (redis_set st key w (some tv) now).2._expiry key =
      some (now + tv) := by
    simp [redis_set, htv, PyDict.get?_set_self]
  have hdata : PyDict.get? (redis_set st key w (some tv) now).2._data key =
      some w := by
    simp [redis_set, PyDict.get?_set_self]
  have hnlt : ¬ (now + tv < now) := by omega
  simp [redis_get, hexp, hnlt, hdata]

theorem redis_fresh_exists (st : RedisState) (key : String) (w : PyString)
    (tv now : Nat) (htv : tv ≠ 0) :
    redis_exists (redis_set st key w (some tv) now).2 key now =
      .ok (1, (redis_set st key w (some tv) now).2) := by
  have hexp : PyDict.get? (redis_set st key w (some tv) now).2._expiry key =
      some (now + tv) := by
    simp [redis_set, htv, PyDict.get?_set_self]
  have hdata : PyDict.get? (redis_set st key w (some tv) now).2._data key =
      some w := by
    simp [redis_set, PyDict.get?_set_self]
  have hnlt : ¬ (now + tv < now) := by omega
  simp [redis_exists, hexp, hnlt, PyDict.contains, hdata]

/-- C1 counterexample: the claim says a `set` overwrites any prior expiry
record unconditionally, so a set without a ttl would leave no stale
expiry.  In the code `if ex:` skips the expiry write, so the stale expiry
record (absolute time 5) survives a ttl-less `set` at time 10 — and the
freshly written value is then immediately unreadable, because `get`
treats the entry as expired and purges it. -/
theorem claim1_set_counterexample :
    PyDict.get? ((redis_set ⟨[("k", .jsonOf (Json.str "a"))], [("k", 5)]⟩
        "k" (.jsonOf (Json.str "b")) none 10).2)._expiry "k" = some 5 ∧
    redis_get ((redis_set ⟨[("k", .jsonOf (Json.str "a"))], [("k", 5)]⟩
        "k" (.jsonOf (Json.str "b")) none 10).2) "k" 10 =
      .ok (none, ⟨[], []⟩) :=
  ⟨rfl, rfl⟩

/-- C1 (amended): `set(k, v, ex)` returns True and stores v under k,
overwriting the prior value and leaving all other keys unchanged; when
`ex` is truthy (not None and nonzero) it overwrites the expiry record
with the absolute time now + ex; when `ex` is None or 0 the expiry dict
is left entirely unchanged, so a prior expiry record for k survives. -/
theorem claim1_set_semantics (st : RedisState) (k : String) (v : PyString)
    (ex : Option Nat) (now : Nat) :
    (redis_set st k v ex now).1 = true ∧
    PyDict.get? (redis_set st k v ex now).2._data k = some v ∧
    (∀ k2, k2 ≠ k →
      PyDict.get? (redis_set st k v ex now).2._data k2 =
        PyDict.get? st._data k2) ∧
    (∀ n, ex = some n → n ≠ 0 →
      PyDict.get? (redis_set st k v ex now).2._expiry k = some (now + n)) ∧
    ((ex = none ∨ ex = some 0) →
      (redis_set st k v ex now).2._expiry = st._expiry) := by
  refine ⟨rfl, ?_, ?_, ?_, ?_⟩
  · simp [redis_set, PyDict.get?_set_self]
  · intro k2 hk2
    simp [redis_set, PyDict.get?_set_ne st._data k k2 v hk2]
  · intro n hn hne
    subst hn
    simp [redis_set, hne, PyDict.get?_set_self]
  · rintro (h | h) <;> subst h <;> simp [redis_set]

theorem claim1_set_semantics_witness :
    PyDict.get?
        (redis_set ⟨[], []⟩ "k" (.jsonOf Json.null) (some 5) 7).2._data "k" =
      some (.jsonOf Json.null) ∧
    PyDict.get?
        (redis_set ⟨[], []⟩ "k" (.jsonOf Json.null) (some 5) 7).2._expiry "k" =
      some 12 :=
  ⟨(claim1_set_semantics ⟨[], []⟩ "k" (.jsonOf Json.null) (some 5) 7).2.1,
   (claim1_set_semantics ⟨[], []⟩ "k" (.jsonOf Json.null) (some 5) 7).2.2.2.1
     5 rfl (by decide)⟩

/-- C2 (code bug): the mock collection's `stream` takes no filter or
limit and yields every document of the collection, and the mock
collection has no `where` method at all, so the evidence query of
database.py raises `AttributeError` in mock mode and the except clause
turns it into an empty result — even though a document whose `claim_id`
field equals the requested value exists in the collection. -/
theorem claim2_mock_stream_unfiltered :
    (∀ (c : Collection String), mock_stream c = c) ∧
    mock_collection_where ([("e1", [("claim_id", "c1")])] : Collection String)
        "claim_id" "==" "c1" = .error .attributeError ∧
    get_evidence_by_claim [("e1", [("claim_id", "c1")])] "c1" = [] ∧
    ([("e1", [("claim_id", "c1")])] : Collection String).filter
        (fun p => decide (PyDict.get? p.2 "claim_id" = some "c1")) =
      [("e1", [("claim_id", "c1")])] :=
  ⟨fun _ => rfl, rfl, rfl, by decide⟩

/-- C3 counterexample: with the cache uninitialized, the try block of
`get_json` raises `RuntimeError`, but the caller receives a plain `None`
result (no error is propagated): the operation's own
`except Exception` clause swallows the not-initialized error. -/
theorem claim3_uninit_counterexample :
    cm_get_json_try ⟨false, ⟨[], []⟩⟩ "claim" "c1" 0 =
      .error (.runtimeError, ⟨[], []⟩) ∧
    cm_get_json ⟨false, ⟨[], []⟩⟩ "claim" "c1" 0 =
      (Json.null, ⟨false, ⟨[], []⟩⟩) :=
  ⟨rfl, rfl⟩

/-- C3 (amended): every cache-manager operation invoked before the cache
is initialized raises `RuntimeError` internally, catches it in its own
`except Exception` clause, and returns its failure default — `None` for
get_json, `False` for set_json, delete and exists — leaving the state
unchanged; the error is not propagated to the caller. -/
theorem claim3_uninitialized_returns_defaults (g : CacheGlobal)
    (pfx identifier : String) (v : Json) (ttl : Option Nat) (now : Nat)
    (h : g._cache_initialized = false) :
    cm_get_json_try g pfx identifier now =
      .error (.runtimeError, g._redis_client) ∧
    cm_get_json g pfx identifier now = (Json.null, g) ∧
    cm_set_json g pfx identifier v ttl now = (false, g) ∧
    cm_delete g pfx identifier = (false, g) ∧
    cm_exists g pfx identifier now = (false, g) := by
  obtain ⟨b, st⟩ := g
  change b = false at h
  subst h
  refine ⟨rfl, rfl, rfl, rfl, rfl⟩

theorem claim3_uninitialized_returns_defaults_witness :
    ((⟨false, ⟨[("x", PyString.jsonOf Json.null)], []⟩⟩ :
        CacheGlobal)._cache_initialized = false) ∧
    cm_get_json ⟨false, ⟨[("x", PyString.jsonOf Json.null)], []⟩⟩
        "claim" "c1" 3 =
      (Json.null, ⟨false, ⟨[("x", PyString.jsonOf Json.null)], []⟩⟩) :=
  ⟨rfl,
   (claim3_uninitialized_returns_defaults
     ⟨false, ⟨[("x", PyString.jsonOf Json.null)], []⟩⟩
     "claim" "c1" Json.null none 3 rfl).2.1⟩

/-- C4: reading a key whose recorded expiry has passed purges the entry
from both dicts and reports absence — `get` returns None, `exists`
returns 0, both leave the purged state, and the data dict shrinks by
exactly one entry. -/
theorem claim4_expired_read_purges (st : RedisState) (k : String)
    (e now : Nat) (he : PyDict.get? st._expiry k = some e) (hlt : e < now)
    (hd : PyDict.contains st._data k = true) :
    redis_get st k now =
      .ok (none, ⟨PyDict.eraseKey st._data k, PyDict.eraseKey st._expiry k⟩) ∧
    redis_exists st k now =
      .ok (0, ⟨PyDict.eraseKey st._data k, PyDict.eraseKey st._expiry k⟩) ∧
    (PyDict.eraseKey st._data k).length + 1 = st._data.length := by
  have hce : PyDict.contains st._expiry k = true :=
    PyDict.contains_of_get?_eq_some _ _ _ he
  refine ⟨?_, ?_, PyDict.length_eraseKey _ _ hd⟩ <;>
    simp [redis_get, redis_exists, he, hlt, PyDict.del, hd, hce]

theorem claim4_expired_read_purges_witness :
    PyDict.get? ([("k", 5)] : List (String × Nat)) "k" = some 5 ∧
    (redis_get ⟨[("k", PyString.jsonOf Json.null)], [("k", 5)]⟩ "k" 9 =
        .ok (none, ⟨[], []⟩) ∧
      redis_exists ⟨[("k", PyString.jsonOf Json.null)], [("k", 5)]⟩ "k" 9 =
        .ok (0, ⟨[], []⟩) ∧
      ([] : List (String × PyString)).length + 1 =
        [("k", PyString.jsonOf Json.null)].length) :=
  ⟨rfl,
   claim4_expired_read_purges ⟨[("k", .jsonOf Json.null)], [("k", 5)]⟩
     "k" 5 9 rfl (by decide) rfl⟩

/-- C5: `document(id).update(partial_fields)` on an existing document
shallow-merges — the stored document becomes the merge, fields not named
in the update keep their old value, and fields named in the update take
the updated value; on an absent document it stores exactly the given
fields. -/
theorem claim5_doc_update_merge (c : Collection α) (doc_id : String)
    (d upd : Doc α) (hnd : (upd.map Prod.fst).Nodup) :
    (PyDict.get? c doc_id = some d →
      PyDict.get? (mock_doc_update c doc_id upd) doc_id =
        some (PyDict.updateAll d upd) ∧
      (∀ f, f ∉ upd.map Prod.fst →
        PyDict.get? (PyDict.updateAll d upd) f = PyDict.get? d f) ∧
      (∀ f, f ∈ upd.map Prod.fst →
        PyDict.get? (PyDict.updateAll d upd) f = PyDict.get? upd f)) ∧
    (PyDict.get? c doc_id = none →
      PyDict.get? (mock_doc_update c doc_id upd) doc_id = some upd) := by
  constructor
  · intro hg
    refine ⟨?_, ?_, ?_⟩
    · simp [mock_doc_update, hg, PyDict.get?_set_self]
    · intro f hf
      exact PyDict.updateAll_get?_not_mem upd d f hf
    · intro f hf
      exact PyDict.updateAll_get?_mem upd d f hnd hf
  · intro hg
    simp [mock_doc_update, hg, PyDict.get?_set_self]

theorem claim5_doc_update_merge_witness :
    PyDict.get? (mock_doc_update
        [("c1", [("status", "new"), ("lang", "en")])] "c1"
        [("status", "done")]) "c1" =
      some [("status", "done"), ("lang", "en")] ∧
    PyDict.get? (mock_doc_update ([] : Collection String) "c1"
        [("status", "done")]) "c1" = some [("status", "done")] :=
  ⟨((claim5_doc_update_merge [("c1", [("status", "new"), ("lang", "en")])]
      "c1" [("status", "new"), ("lang", "en")] [("status", "done")]
      (by decide)).1 rfl).1,
   (claim5_doc_update_merge ([] : Collection String) "c1"
      [("status", "new"), ("lang", "en")] [("status", "done")]
      (by decide)).2 rfl⟩

/-- C6: immediately after `set(k, v, t)` with a positive ttl (no time
having advanced), `get(k)` returns v and `exists(k)` returns 1, both
without changing the state. -/
theorem claim6_set_then_get_and_exists (st : RedisState) (k : String)
    (v : PyString) (t now : Nat) (ht : 0 < t) :
    redis_get (redis_set st k v (some t) now).2 k now =
      .ok (some v, (redis_set st k v (some t) now).2) ∧
    redis_exists (redis_set st k v (some t) now).2 k now =
      .ok (1, (redis_set st k v (some t) now).2) := by
  have htne : t ≠ 0 := Nat.pos_iff_ne_zero.mp ht
  exact ⟨redis_fresh_get st k v t now htne, redis_fresh_exists st k v t now htne⟩

theorem claim6_set_then_get_and_exists_witness :
    (0 < 5) ∧
    (redis_get (redis_set ⟨[], []⟩ "k" (.jsonOf Json.null) (some 5) 7).2
        "k" 7 =
      .ok (some (.jsonOf Json.null),
        (redis_set ⟨[], []⟩ "k" (.jsonOf Json.null) (some 5) 7).2) ∧
    redis_exists (redis_set ⟨[], []⟩ "k" (.jsonOf Json.null) (some 5) 7).2
        "k" 7 =
      .ok (1, (redis_set ⟨[], []⟩ "k" (.jsonOf Json.null) (some 5) 7).2)) :=
  ⟨by decide,
   claim6_set_then_get_and_exists ⟨[], []⟩ "k" (.jsonOf Json.null) 5 7
     (by decide)⟩

/-- C7: on an initialized cache, storing any JSON-serializable value with
`set_json` and reading it back with `get_json` at the same instant
round-trips: `set_json` reports success and `get_json` returns the
stored value. -/
theorem cm_set_json_eq (st : RedisState) (pfx identifier : String)
    (v : Json) (ttl : Option Nat) (now : Nat) :
    ∃ tv, tv ≠ 0 ∧
      cm_set_json ⟨true, st⟩ pfx identifier v ttl now =
        (true, ⟨true, (redis_set st (make_key pfx identifier)
          (json_dumps v) (some tv) now).2⟩) := by
  cases ttl with
  | none => exact ⟨CACHE_TTL_SECONDS, by decide, rfl⟩
  | some n =>
      by_cases hn : n = 0
      · refine ⟨CACHE_TTL_SECONDS, by decide, ?_⟩
        subst hn
        rfl
      · refine ⟨n, hn, ?_⟩
        simp [cm_set_json, cm_set_json_try, cm_get_client, hn]

theorem cm_fresh_get_json (st : RedisState) (pfx identifier : String)
    (v : Json) (tv now : Nat) (htv : tv ≠ 0) :
    cm_get_json ⟨true, (redis_set st (make_key pfx identifier)
        (json_dumps v) (some tv) now).2⟩ pfx identifier now =
      (v, ⟨true, (redis_set st (make_key pfx identifier)
        (json_dumps v) (some tv) now).2⟩) := by
  have h2 := redis_fresh_get st (make_key pfx identifier) (json_dumps v)
    tv now htv
  simp only [json_dumps] at h2 ⊢
  simp [cm_get_json, cm_get_json_try, cm_get_client, h2, pystr_truthy,
    json_loads]

theorem claim7_json_roundtrip (g : CacheGlobal) (pfx identifier : String)
    (v : Json) (ttl : Option Nat) (now : Nat)
    (h : g._cache_initialized = true) :
    (cm_set_json g pfx identifier v ttl now).1 = true ∧
    (cm_get_json (cm_set_json g pfx identifier v ttl now).2
        pfx identifier now).1 = v := by
  obtain ⟨b, st⟩ := g
  change b = true at h
  subst h
  obtain ⟨tv, htv, hset⟩ := cm_set_json_eq st pfx identifier v ttl now
  rw [hset]
  refine ⟨rfl, ?_⟩
  rw [cm_fresh_get_json st pfx identifier v tv now htv]

theorem claim7_json_roundtrip_witness :
    ((⟨true, ⟨[], []⟩⟩ : CacheGlobal)._cache_initialized = true) ∧
    ((cm_set_json ⟨true, ⟨[], []⟩⟩ "claim" "c1"
        (Json.obj [("text", Json.str "abc")]) (some 5) 0).1 = true ∧
      (cm_get_json (cm_set_json ⟨true, ⟨[], []⟩⟩ "claim" "c1"
          (Json.obj [("text", Json.str "abc")]) (some 5) 0).2
        "claim" "c1" 0).1 = Json.obj [("text", Json.str "abc")]) :=
  ⟨rfl,
   claim7_json_roundtrip ⟨true, ⟨[], []⟩⟩ "claim" "c1"
     (Json.obj [("text", Json.str "abc")]) (some 5) 0 rfl⟩

/-- C8: when the stored payload under the requested key is a malformed
(non-JSON-parseable) string, `get_json` returns `None` — the
deserialization failure (or, for an already-expired entry, the purge) is
handled inside the operation and never propagated. -/
theorem claim8_malformed_payload_is_miss (g : CacheGlobal)
    (pfx identifier : String) (now : Nat) (s : String)
    (hinit : g._cache_initialized = true)
    (hm : PyDict.get? g._redis_client._data (make_key pfx identifier) =
      some (PyString.malformed s)) :
    (cm_get_json g pfx identifier now).1 = Json.null := by
  obtain ⟨b, st⟩ := g
  change b = true at hinit
  subst hinit
  change PyDict.get? st._data (make_key pfx identifier) =
    some (PyString.malformed s) at hm
  cases hexp : PyDict.get? st._expiry (make_key pfx identifier) with
  | none =>
      by_cases hs : s = ""
      · subst hs
        simp [cm_get_json, cm_get_json_try, cm_get_client, redis_get, hexp,
          hm, pystr_truthy]
      · simp [cm_get_json, cm_get_json_try, cm_get_client, redis_get, hexp,
          hm, pystr_truthy, hs, json_loads]
  | some e =>
      by_cases hlt : e < now
      · have hck : PyDict.contains st._data (make_key pfx identifier) = true :=
          PyDict.contains_of_get?_eq_some _ _ _ hm
        have hce : PyDict.contains st._expiry (make_key pfx identifier) =
            true := PyDict.contains_of_get?_eq_some _ _ _ hexp
        simp [cm_get_json, cm_get_json_try, cm_get_client, redis_get, hexp,
          hlt, PyDict.del, hck, hce]
      · by_cases hs : s = ""
        · subst hs
          simp [cm_get_json, cm_get_json_try, cm_get_client, redis_get,
            hexp, hlt, hm, pystr_truthy]
        · simp [cm_get_json, cm_get_json_try, cm_get_client, redis_get,
            hexp, hlt, hm, pystr_truthy, hs, json_loads]

theorem claim8_malformed_payload_is_miss_witness :
    ((⟨true, ⟨[("trustnet:claim:c1", PyString.malformed "not json")], []⟩⟩ :
        CacheGlobal)._cache_initialized = true) ∧
    PyDict.get? [("trustnet:claim:c1", PyString.malformed "not json")]
        (make_key "claim" "c1") = some (PyString.malformed "not json") ∧
    (cm_get_json
        ⟨true, ⟨[("trustnet:claim:c1", PyString.malformed "not json")], []⟩⟩
        "claim" "c1" 0).1 = Json.null :=
  ⟨rfl, rfl,
   claim8_malformed_payload_is_miss
     ⟨true, ⟨[("trustnet:claim:c1", PyString.malformed "not json")], []⟩⟩
     "claim" "c1" 0 "not json" rfl rfl⟩

/-- C9: on a well-formed client state (dict keys unique, every expiry key
backed by a data entry), the expiry-implies-data invariant is preserved
by set, get, delete and exists, and the unguarded `del self._data[key]`
inside get and exists never raises: both operations always return ok. -/
theorem claim9_invariant_preservation (st : RedisState) (k : String)
    (v : PyString) (ex : Option Nat) (now : Nat) (h : RedisWF st) :
    RedisWF (redis_set st k v ex now).2 ∧
    (∃ r st2, redis_get st k now = .ok (r, st2) ∧ RedisWF st2) ∧
    RedisWF (redis_delete st k).2 ∧
    (∃ n st2, redis_exists st k now = .ok (n, st2) ∧ RedisWF st2) :=
  ⟨redis_set_wf st k v ex now h, redis_get_ok_wf st k now h,
   redis_delete_wf st k h, redis_exists_ok_wf st k now h⟩

theorem claim9_invariant_preservation_witness :
    RedisWF ⟨[("k", PyString.jsonOf Json.null)], [("k", 5)]⟩ ∧
    (RedisWF (redis_set ⟨[("k", PyString.jsonOf Json.null)], [("k", 5)]⟩
        "k" (PyString.jsonOf Json.null) none 9).2 ∧
      (∃ r st2, redis_get ⟨[("k", PyString.jsonOf Json.null)], [("k", 5)]⟩
          "k" 9 = .ok (r, st2) ∧ RedisWF st2) ∧
      RedisWF (redis_delete ⟨[("k", PyString.jsonOf Json.null)], [("k", 5)]⟩
        "k").2 ∧
      (∃ n st2, redis_exists ⟨[("k", PyString.jsonOf Json.null)], [("k", 5)]⟩
          "k" 9 = .ok (n, st2) ∧ RedisWF st2)) :=
  ⟨by decide,
   claim9_invariant_preservation ⟨[("k", PyString.jsonOf Json.null)], [("k", 5)]⟩
     "k" (PyString.jsonOf Json.null) none 9 (by decide)⟩

/-- C10: `add` deterministically assigns the id `mock_` followed by the
current document count of the collection; after add, add, delete the
first, add, the generated id `mock_1` already names a live document, and
the add silently overwrites it instead of creating a new one (the
collection still has exactly one document). -/
theorem claim10_add_id_collision :
    (∀ (c : Collection String) (d : Doc String),
      (mock_add c d).1 = "mock_" ++ toString c.length) ∧
    ((mock_add (mock_doc_delete
        (mock_add (mock_add [] [("t", "a")]).2 [("t", "b")]).2 "mock_0")
        [("t", "c")]).1 = "mock_1" ∧
      PyDict.contains (mock_doc_delete
        (mock_add (mock_add [] [("t", "a")]).2 [("t", "b")]).2 "mock_0")
        "mock_1" = true ∧
      (mock_add (mock_doc_delete
        (mock_add (mock_add [] [("t", "a")]).2 [("t", "b")]).2 "mock_0")
        [("t", "c")]).2 = [("mock_1", [("t", "c")])]) :=
  ⟨fun _ _ => rfl, by decide, by decide, by decide⟩

end TrustNet
